import Mathlib

/-!
Shallow embedding of the CryptoShield confidential-lending core: the
Vault contract (CryptoShield.sol, staking / withdrawal / encrypted
borrow / encrypted repay) and the Ledger contract (CZama.sol,
minter-gated confidential mint and burn).

Encrypted 64-bit values (euint64 ciphertext handles) are embedded as
the natural numbers they decrypt to; the FHE collaborator primitives
(comparison, select, boolean and) become their plaintext counterparts,
which is exactly the view of a party holding the decryption key.
Reverting calls are embedded in the Except monad: a revert yields an
error and no successor state, which models the rollback of all storage
writes made earlier in the call.
-/

/-- 2 ^ 64, the size of the encrypted unsigned 64-bit domain. -/
def U64MOD : Nat := 18446744073709551616

/-- type(uint64).max, the largest value of the encrypted domain. -/
def U64MAX : Nat := 18446744073709551615

/-- Solidity custom errors of CryptoShield and CZama, plus the atomic
failure of the external-input validator (invalid ciphertext proof). -/
inductive Err where
  | ZeroStakeAmount
  | StakeTooLarge
  | NoStake
  | ZeroWithdrawAmount
  | InsufficientStake
  | EthTransferFailed
  | InvalidProof
  | UnauthorizedOwner
  | UnauthorizedMinter
  | InvalidMinter
deriving DecidableEq

/-- Pointwise update of an address-indexed mapping. -/
def setAt (f : Nat → Nat) (a v : Nat) : Nat → Nat :=
  fun x => if x = a then v else f x

/-- Wrapping 64-bit addition: the unguarded encrypted addition the
Ledger uses for balance increases. -/
def fheAdd (a b : Nat) : Nat := (a + b) % U64MOD

/-- Wrapping 64-bit subtraction: the unguarded encrypted subtraction
the Ledger uses for balance decreases. -/
def fheSub (a b : Nat) : Nat := (a + (U64MOD - b % U64MOD)) % U64MOD

/-- Modelled from the spec: FHESafeMath.tryIncrease, the overflow-safe
encrypted increase from the confidential-contracts library (not under
src/). It yields the candidate sum together with a boolean that is
true iff no 64-bit overflow occurred, and clamps (keeps the old value)
instead of wrapping when the boolean is false. -/
def tryIncrease (oldValue delta : Nat) : Bool × Nat :=
  (decide (oldValue + delta < U64MOD),
   if oldValue + delta < U64MOD then oldValue + delta else oldValue)

/-- Modelled from the spec: FHESafeMath.tryDecrease, the underflow-safe
encrypted decrease (not under src/). The boolean is true iff
delta is at most the old value; the result is the clamped difference,
equal to the old value when the boolean is false. -/
def tryDecrease (oldValue delta : Nat) : Bool × Nat :=
  (decide (delta ≤ oldValue),
   if delta ≤ oldValue then oldValue - delta else oldValue)

/-- Storage of the CZama Ledger: owner, single authorized minter, and
the per-account confidential balances (decrypted view). -/
structure CZamaState where
  owner : Nat
  minter : Nat
  balances : Nat → Nat

/-- CZama.mint: minter-gated confidential mint; increases the balance
of the target account and returns the new balance handle. -/
def CZama.mint (st : CZamaState) (caller toAcc amount : Nat) :
    Except Err (CZamaState × Nat) :=
  if caller ≠ st.minter then Except.error Err.UnauthorizedMinter
  else
    let nb := fheAdd (st.balances toAcc) amount
    Except.ok ({ st with balances := setAt st.balances toAcc nb }, nb)

/-- CZama.burnFrom: minter-gated confidential burn; decreases the
balance of the source account and returns the new balance handle. -/
def CZama.burnFrom (st : CZamaState) (caller fromAcc amount : Nat) :
    Except Err (CZamaState × Nat) :=
  if caller ≠ st.minter then Except.error Err.UnauthorizedMinter
  else
    let nb := fheSub (st.balances fromAcc) amount
    Except.ok ({ st with balances := setAt st.balances fromAcc nb }, nb)

/-- Storage of the CryptoShield Vault: its own address (the caller
identity it presents to the Ledger), the three per-account mappings
(_stakedEncrypted and _debtEncrypted as their decrypted values,
_stakedPlain as the plain uint256), and the Ledger it drives. -/
structure ShieldState where
  selfAddr : Nat
  stakedEncrypted : Nat → Nat
  debtEncrypted : Nat → Nat
  stakedPlain : Nat → Nat
  czama : CZamaState

/-- CryptoShield.stake: payable deposit of msgValue; reverts on a zero
amount and on the plain stake exceeding the 64-bit bound, otherwise
increments the plain stake and safe-increases the encrypted stake. -/
def stake (st : ShieldState) (sender msgValue : Nat) :
    Except Err ShieldState :=
  if msgValue = 0 then Except.error Err.ZeroStakeAmount
  else
    let nextPlain := st.stakedPlain sender + msgValue
    if U64MAX < nextPlain then Except.error Err.StakeTooLarge
    else
      let amount := msgValue % U64MOD
      let inc := tryIncrease (st.stakedEncrypted sender) amount
      Except.ok { st with
        stakedPlain := setAt st.stakedPlain sender nextPlain,
        stakedEncrypted := setAt st.stakedEncrypted sender inc.2 }

/-- CryptoShield.withdraw: public withdrawal of amount; reverts on a
zero amount, on insufficient plain stake, and on amounts above the
64-bit bound; otherwise decrements the plain stake, safe-decreases the
encrypted stake, and finally transfers the base asset. transferOk
models the success of that external call: on failure the whole call
reverts with EthTransferFailed, rolling back the decrements. -/
def withdraw (st : ShieldState) (sender amount : Nat) (transferOk : Bool) :
    Except Err ShieldState :=
  if amount = 0 then Except.error Err.ZeroWithdrawAmount
  else
    let currentPlain := st.stakedPlain sender
    if currentPlain < amount then Except.error Err.InsufficientStake
    else if U64MAX < amount then Except.error Err.StakeTooLarge
    else
      let dec := tryDecrease (st.stakedEncrypted sender) (amount % U64MOD)
      let st1 : ShieldState := { st with
        stakedPlain := setAt st.stakedPlain sender (currentPlain - amount),
        stakedEncrypted := setAt st.stakedEncrypted sender dec.2 }
      if transferOk then Except.ok st1
      else Except.error Err.EthTransferFailed

/-- CryptoShield.borrow: gated on a nonzero plain stake, then decodes
the external ciphertext (amount is its decrypted 64-bit value;
proofValid models the external-input validator, whose failure reverts
the call). Computes the safe-increased debt, the encrypted collateral
comparison and their conjunction canBorrow, stores the selected final
debt, and mints the selected amount (the requested amount or zero) to
the caller on the Ledger. -/
def borrow (st : ShieldState) (sender amount : Nat) (proofValid : Bool) :
    Except Err ShieldState :=
  if st.stakedPlain sender = 0 then Except.error Err.NoStake
  else if proofValid = false then Except.error Err.InvalidProof
  else
    let a := amount % U64MOD
    let currentDebt := st.debtEncrypted sender
    let inc := tryIncrease currentDebt a
    let withinCollateral := decide (inc.2 ≤ st.stakedEncrypted sender)
    let canBorrow := inc.1 && withinCollateral
    let finalDebt := if canBorrow then inc.2 else currentDebt
    let mintAmount := if canBorrow then a else 0
    match CZama.mint st.czama st.selfAddr sender mintAmount with
    | Except.error e => Except.error e
    | Except.ok res =>
        Except.ok { st with
          debtEncrypted := setAt st.debtEncrypted sender finalDebt,
          czama := res.1 }

/-- CryptoShield.repay: decodes the external ciphertext (no plaintext
gate at all), safe-decreases the debt, stores the clamped result
unconditionally, and burns the selected amount (the requested amount
when it was at most the debt, zero otherwise) from the caller on the
Ledger. -/
def repay (st : ShieldState) (sender amount : Nat) (proofValid : Bool) :
    Except Err ShieldState :=
  if proofValid = false then Except.error Err.InvalidProof
  else
    let a := amount % U64MOD
    let currentDebt := st.debtEncrypted sender
    let dec := tryDecrease currentDebt a
    let burnAmount := if dec.1 then a else 0
    match CZama.burnFrom st.czama st.selfAddr sender burnAmount with
    | Except.error e => Except.error e
    | Except.ok res =>
        Except.ok { st with
          debtEncrypted := setAt st.debtEncrypted sender dec.2,
          czama := res.1 }

/-- A deployed configuration with the wiring of the test fixture: the
Vault at address 1 is the Ledger minter; account fields are p (plain
stake), e (encrypted stake), d (encrypted debt) for every account. -/
def demoState (p e d : Nat) : ShieldState :=
  { selfAddr := 1,
    stakedEncrypted := fun _ => e,
    debtEncrypted := fun _ => d,
    stakedPlain := fun _ => p,
    czama := { owner := 0, minter := 1, balances := fun _ => 0 } }

/-- A Ledger deployment: owner 0, minter 1, all balances zero. -/
def czDemo : CZamaState := { owner := 0, minter := 1, balances := fun _ => 0 }

/-- A concrete reachable run from a fresh deployment: account 7 stakes
100, borrows 50 against it, then withdraws the full 100 stake. -/
def c1Run : Except Err ShieldState :=
  Except.bind (stake (demoState 0 0 0) 7 100) fun st1 =>
    Except.bind (borrow st1 7 50 true) fun st2 =>
      withdraw st2 7 100 true

lemma setAt_self (f : Nat → Nat) (a v : Nat) : setAt f a v a = v := by
  simp [setAt]

lemma U64_lt_of_le_max (a : Nat) (h : a ≤ U64MAX) : a < U64MOD := by
  simp only [U64MAX] at h
  simp only [U64MOD]
  omega

lemma fheSub_zero (a : Nat) (h : a < U64MOD) : fheSub a 0 = a := by
  simp [fheSub, Nat.add_mod_right, Nat.mod_eq_of_lt h]

/-- Success-path characterization of stake: with a nonzero payment and
the 64-bit bound respected, stake returns the updated record. -/
lemma stake_ok (st : ShieldState) (sender v : Nat) (h0 : v ≠ 0)
    (hb : st.stakedPlain sender + v ≤ U64MAX) :
    stake st sender v = Except.ok { st with
      stakedPlain := setAt st.stakedPlain sender (st.stakedPlain sender + v),
      stakedEncrypted := setAt st.stakedEncrypted sender
        (tryIncrease (st.stakedEncrypted sender) (v % U64MOD)).2 } := by
  simp only [stake]
  rw [if_neg h0, if_neg (by omega)]

/-- Success-path characterization of withdraw: valid amount and a
successful base-asset transfer yield the decremented record. -/
lemma withdraw_ok (st : ShieldState) (sender amount : Nat) (h0 : amount ≠ 0)
    (hle : amount ≤ st.stakedPlain sender) (hb : amount ≤ U64MAX) :
    withdraw st sender amount true = Except.ok { st with
      stakedPlain := setAt st.stakedPlain sender (st.stakedPlain sender - amount),
      stakedEncrypted := setAt st.stakedEncrypted sender
        (tryDecrease (st.stakedEncrypted sender) (amount % U64MOD)).2 } := by
  simp only [withdraw]
  rw [if_neg h0, if_neg (by omega), if_neg (by omega)]
  simp

/-- Success-path characterization of borrow: with a nonzero plain
stake, a valid proof, and the Vault wired as the Ledger minter, borrow
returns the conditionally updated debt and balance. -/
lemma borrow_ok (st : ShieldState) (sender a : Nat)
    (hstake : st.stakedPlain sender ≠ 0)
    (hm : st.selfAddr = st.czama.minter) :
    borrow st sender a true = Except.ok { st with
      debtEncrypted := setAt st.debtEncrypted sender
        (if (tryIncrease (st.debtEncrypted sender) (a % U64MOD)).1 &&
            decide ((tryIncrease (st.debtEncrypted sender) (a % U64MOD)).2 ≤
              st.stakedEncrypted sender)
          then (tryIncrease (st.debtEncrypted sender) (a % U64MOD)).2
          else st.debtEncrypted sender),
      czama := { st.czama with
        balances := setAt st.czama.balances sender
          (fheAdd (st.czama.balances sender)
            (if (tryIncrease (st.debtEncrypted sender) (a % U64MOD)).1 &&
                decide ((tryIncrease (st.debtEncrypted sender) (a % U64MOD)).2 ≤
                  st.stakedEncrypted sender)
              then a % U64MOD else 0)) } } := by
  simp only [borrow, CZama.mint]
  rw [if_neg hstake, if_neg (by simp), if_neg (fun hne => hne hm)]

/-- Success-path characterization of repay: with a valid proof and the
Vault wired as the Ledger minter, repay returns the clamped debt and
the conditionally burned balance. -/
lemma repay_ok (st : ShieldState) (sender a : Nat)
    (hm : st.selfAddr = st.czama.minter) :
    repay st sender a true = Except.ok { st with
      debtEncrypted := setAt st.debtEncrypted sender
        (tryDecrease (st.debtEncrypted sender) (a % U64MOD)).2,
      czama := { st.czama with
        balances := setAt st.czama.balances sender
          (fheSub (st.czama.balances sender)
            (if (tryDecrease (st.debtEncrypted sender) (a % U64MOD)).1
              then a % U64MOD else 0)) } } := by
  simp only [repay, CZama.burnFrom]
  rw [if_neg (by simp), if_neg (fun hne => hne hm)]

/-- The encrypted canBorrow conjunction decides exactly the predicate
of the spec: the new debt fits in 64 bits and is within collateral. -/
lemma canBorrow_iff (d a s : Nat) :
    ((tryIncrease d a).1 && decide ((tryIncrease d a).2 ≤ s)) =
      decide (d + a ≤ U64MAX ∧ d + a ≤ s) := by
  simp only [tryIncrease]
  by_cases hov : d + a < U64MOD
  · have h1 : d + a ≤ U64MAX := by
      simp only [U64MAX]
      simp only [U64MOD] at hov
      omega
    simp [hov, h1]
  · have h1 : ¬ (d + a ≤ U64MAX) := by
      simp only [U64MAX]
      simp only [U64MOD] at hov
      omega
    simp [hov, h1]

lemma borrow_finalDebt_eq (d a s : Nat) :
    (if (tryIncrease d a).1 && decide ((tryIncrease d a).2 ≤ s)
      then (tryIncrease d a).2 else d) =
    (if d + a ≤ U64MAX ∧ d + a ≤ s then d + a else d) := by
  rw [canBorrow_iff]
  by_cases h : d + a ≤ U64MAX ∧ d + a ≤ s
  · have hov : d + a < U64MOD := U64_lt_of_le_max _ h.1
    simp [h, tryIncrease, hov]
  · simp [h]

lemma borrow_mint_eq (d a s : Nat) :
    (if (tryIncrease d a).1 && decide ((tryIncrease d a).2 ≤ s) then a else 0) =
    (if d + a ≤ U64MAX ∧ d + a ≤ s then a else 0) := by
  rw [canBorrow_iff]
  by_cases h : d + a ≤ U64MAX ∧ d + a ≤ s
  · simp [h]
  · simp [h]

/-- C1 (amended): every successful stake, borrow and repay by a caller
preserves the collateralization predicate, namely that the decrypted
debt is at most the decrypted stake of the caller record. The original
claim also named withdraw among the preserving operations; withdraw
checks only the plain stake against the requested amount and never
consults the debt, so it does not preserve the predicate (see the
counterexample theorem). -/
theorem stake_borrow_repay_preserve_collateralization (st : ShieldState) (sender : Nat)
    (hinv : st.debtEncrypted sender ≤ st.stakedEncrypted sender) :
    (∀ v st2, stake st sender v = Except.ok st2 →
      st2.debtEncrypted sender ≤ st2.stakedEncrypted sender) ∧
    (∀ a p st2, borrow st sender a p = Except.ok st2 →
      st2.debtEncrypted sender ≤ st2.stakedEncrypted sender) ∧
    (∀ a p st2, repay st sender a p = Except.ok st2 →
      st2.debtEncrypted sender ≤ st2.stakedEncrypted sender) := by
  refine ⟨?_, ?_, ?_⟩
  · intro v st2 h
    simp only [stake] at h
    split at h
    · simp at h
    · split at h
      · simp at h
      · simp only [Except.ok.injEq] at h
        subst h
        dsimp only
        rw [setAt_self]
        simp only [tryIncrease]
        split <;> omega
  · intro a p st2 h
    simp only [borrow] at h
    split at h
    · simp at h
    · split at h
      · simp at h
      · split at h
        · simp at h
        · simp only [Except.ok.injEq] at h
          subst h
          dsimp only
          rw [setAt_self]
          by_cases hcb :
              ((tryIncrease (st.debtEncrypted sender) (a % U64MOD)).1 &&
                decide ((tryIncrease (st.debtEncrypted sender) (a % U64MOD)).2 ≤
                  st.stakedEncrypted sender)) = true
          · rw [if_pos hcb]
            rw [Bool.and_eq_true] at hcb
            exact of_decide_eq_true hcb.2
          · rw [if_neg hcb]
            exact hinv
  · intro a p st2 h
    simp only [repay] at h
    split at h
    · simp at h
    · split at h
      · simp at h
      · simp only [Except.ok.injEq] at h
        subst h
        dsimp only
        rw [setAt_self]
        simp only [tryDecrease]
        split <;> omega

theorem stake_borrow_repay_preserve_collateralization_witness :
    (demoState 5 5 2).debtEncrypted 7 ≤ (demoState 5 5 2).stakedEncrypted 7 ∧
    ((∀ v st2, stake (demoState 5 5 2) 7 v = Except.ok st2 →
        st2.debtEncrypted 7 ≤ st2.stakedEncrypted 7) ∧
      (∀ a p st2, borrow (demoState 5 5 2) 7 a p = Except.ok st2 →
        st2.debtEncrypted 7 ≤ st2.stakedEncrypted 7) ∧
      (∀ a p st2, repay (demoState 5 5 2) 7 a p = Except.ok st2 →
        st2.debtEncrypted 7 ≤ st2.stakedEncrypted 7)) :=
  ⟨by decide, stake_borrow_repay_preserve_collateralization (demoState 5 5 2) 7 (by decide)⟩

/-- C1 counterexample: starting from a fresh deployment, the sequence
of public operations stake 100, borrow 50, withdraw 100 by account 7
succeeds and reaches a state in which the decrypted debt (50) exceeds
the decrypted stake (0), so the claimed invariant, stated over every
public operation including withdraw, is false on the code. -/
theorem withdraw_breaks_collateralization :
    Except.map (fun st => decide (st.debtEncrypted 7 ≤ st.stakedEncrypted 7)) c1Run
      = Except.ok false := by
  rfl

/-- C2: for a caller with nonzero plain stake and a validated 64-bit
borrow amount a, borrow always succeeds, stores debt + a as the new
debt exactly when debt + a neither overflows 64 bits nor exceeds the
encrypted stake (and keeps the old debt otherwise), and mints a under
that same condition (zero otherwise) to the caller on the Ledger; in
particular a borrow failing the collateral check does not revert. -/
theorem borrow_conditional_update (st : ShieldState) (sender a : Nat)
    (hstake : st.stakedPlain sender ≠ 0)
    (ha : a ≤ U64MAX)
    (hm : st.selfAddr = st.czama.minter) :
    ∃ st2, borrow st sender a true = Except.ok st2 ∧
      st2.debtEncrypted sender =
        (if st.debtEncrypted sender + a ≤ U64MAX ∧
            st.debtEncrypted sender + a ≤ st.stakedEncrypted sender
          then st.debtEncrypted sender + a
          else st.debtEncrypted sender) ∧
      st2.czama.balances sender =
        fheAdd (st.czama.balances sender)
          (if st.debtEncrypted sender + a ≤ U64MAX ∧
              st.debtEncrypted sender + a ≤ st.stakedEncrypted sender
            then a else 0) := by
  have hmod : a % U64MOD = a := Nat.mod_eq_of_lt (U64_lt_of_le_max _ ha)
  refine ⟨_, borrow_ok st sender a hstake hm, ?_, ?_⟩
  · dsimp only
    rw [setAt_self, hmod, borrow_finalDebt_eq]
  · dsimp only
    rw [setAt_self, hmod, borrow_mint_eq]

theorem borrow_conditional_update_witness :
    ((demoState 5 5 0).stakedPlain 7 ≠ 0 ∧ 3 ≤ U64MAX ∧
      (demoState 5 5 0).selfAddr = (demoState 5 5 0).czama.minter) ∧
    (∃ st2, borrow (demoState 5 5 0) 7 3 true = Except.ok st2 ∧
      st2.debtEncrypted 7 =
        (if (demoState 5 5 0).debtEncrypted 7 + 3 ≤ U64MAX ∧
            (demoState 5 5 0).debtEncrypted 7 + 3 ≤ (demoState 5 5 0).stakedEncrypted 7
          then (demoState 5 5 0).debtEncrypted 7 + 3
          else (demoState 5 5 0).debtEncrypted 7) ∧
      st2.czama.balances 7 =
        fheAdd ((demoState 5 5 0).czama.balances 7)
          (if (demoState 5 5 0).debtEncrypted 7 + 3 ≤ U64MAX ∧
              (demoState 5 5 0).debtEncrypted 7 + 3 ≤ (demoState 5 5 0).stakedEncrypted 7
            then 3 else 0)) :=
  ⟨⟨by decide, by decide, by decide⟩,
    borrow_conditional_update (demoState 5 5 0) 7 3 (by decide) (by decide) (by decide)⟩

/-- C3: when the base-asset transfer at the end of withdraw fails, the
whole call fails with EthTransferFailed; since a failing call yields
no successor state in this embedding (the revert rolls back every
earlier storage write), neither plain nor encrypted stake changes. -/
theorem withdraw_atomic_on_transfer_failure (st : ShieldState) (sender amount : Nat)
    (h0 : amount ≠ 0) (hle : amount ≤ st.stakedPlain sender) (hb : amount ≤ U64MAX) :
    withdraw st sender amount false = Except.error Err.EthTransferFailed := by
  simp only [withdraw]
  rw [if_neg h0, if_neg (by omega), if_neg (by omega)]
  simp

theorem withdraw_atomic_on_transfer_failure_witness :
    (3 ≠ 0 ∧ 3 ≤ (demoState 5 5 0).stakedPlain 7 ∧ 3 ≤ U64MAX) ∧
    withdraw (demoState 5 5 0) 7 3 false = Except.error Err.EthTransferFailed :=
  ⟨⟨by decide, by decide, by decide⟩,
    withdraw_atomic_on_transfer_failure (demoState 5 5 0) 7 3
      (by decide) (by decide) (by decide)⟩

/-- C4: if the decrypted encrypted stake equals the plain stake and the
plain stake is within the 64-bit domain, then after every successful
stake and every successful withdraw the two mirrors are again equal. -/
theorem stake_withdraw_preserve_mirror (st : ShieldState) (sender : Nat)
    (hmirror : st.stakedEncrypted sender = st.stakedPlain sender)
    (hbound : st.stakedPlain sender ≤ U64MAX) :
    (∀ v st2, stake st sender v = Except.ok st2 →
      st2.stakedEncrypted sender = st2.stakedPlain sender) ∧
    (∀ amount transferOk st2, withdraw st sender amount transferOk = Except.ok st2 →
      st2.stakedEncrypted sender = st2.stakedPlain sender) := by
  constructor
  · intro v st2 h
    simp only [stake] at h
    split at h
    · simp at h
    · next hguard =>
      split at h
      · simp at h
      · next hguard2 =>
        simp only [Except.ok.injEq] at h
        subst h
        dsimp only
        rw [setAt_self, setAt_self]
        have hv : v % U64MOD = v :=
          Nat.mod_eq_of_lt (U64_lt_of_le_max _ (by omega))
        rw [hv, hmirror]
        simp only [tryIncrease]
        rw [if_pos (U64_lt_of_le_max _ (by omega))]
  · intro amount transferOk st2 h
    simp only [withdraw] at h
    split at h
    · simp at h
    · next h0 =>
      split at h
      · simp at h
      · next hins =>
        split at h
        · simp at h
        · next htoo =>
          split at h
          · simp only [Except.ok.injEq] at h
            subst h
            dsimp only
            rw [setAt_self, setAt_self]
            have ha : amount % U64MOD = amount :=
              Nat.mod_eq_of_lt (U64_lt_of_le_max _ (by omega))
            rw [ha, hmirror]
            simp only [tryDecrease]
            rw [if_pos (by omega)]
          · simp at h

theorem stake_withdraw_preserve_mirror_witness :
    ((demoState 5 5 0).stakedEncrypted 7 = (demoState 5 5 0).stakedPlain 7 ∧
      (demoState 5 5 0).stakedPlain 7 ≤ U64MAX) ∧
    ((∀ v st2, stake (demoState 5 5 0) 7 v = Except.ok st2 →
        st2.stakedEncrypted 7 = st2.stakedPlain 7) ∧
      (∀ amount transferOk st2,
        withdraw (demoState 5 5 0) 7 amount transferOk = Except.ok st2 →
          st2.stakedEncrypted 7 = st2.stakedPlain 7)) :=
  ⟨⟨by decide, by decide⟩,
    stake_withdraw_preserve_mirror (demoState 5 5 0) 7 (by decide) (by decide)⟩

/-- C5: from a fresh account on a correctly wired deployment, for every
stake s with 0 < s within the 64-bit domain and every borrow b with
0 < b at most s, the sequence stake s, borrow b, repay b, withdraw s
succeeds step by step and leaves plain stake, decrypted encrypted
stake, and decrypted debt all zero. -/
theorem round_trip (st : ShieldState) (sender s b : Nat)
    (hp : st.stakedPlain sender = 0)
    (he : st.stakedEncrypted sender = 0)
    (hd : st.debtEncrypted sender = 0)
    (hm : st.selfAddr = st.czama.minter)
    (hs0 : 0 < s) (hsmax : s ≤ U64MAX) (hb0 : 0 < b) (hbs : b ≤ s) :
    ∃ st1 st2 st3 st4,
      stake st sender s = Except.ok st1 ∧
      borrow st1 sender b true = Except.ok st2 ∧
      repay st2 sender b true = Except.ok st3 ∧
      withdraw st3 sender s true = Except.ok st4 ∧
      st4.stakedPlain sender = 0 ∧
      st4.stakedEncrypted sender = 0 ∧
      st4.debtEncrypted sender = 0 := by
  have hsU : s < U64MOD := U64_lt_of_le_max _ hsmax
  have hbU : b < U64MOD := U64_lt_of_le_max _ (le_trans hbs hsmax)
  have hsmod : s % U64MOD = s := Nat.mod_eq_of_lt hsU
  have hbmod : b % U64MOD = b := Nat.mod_eq_of_lt hbU
  refine ⟨_, _, _, _, stake_ok st sender s (by omega) (by omega),
    borrow_ok _ sender b ?h1 ?h2, repay_ok _ sender b ?h3,
    withdraw_ok _ sender s ?h4 ?h5 ?h6, ?hpl, ?henc, ?hdebt⟩
  case h1 =>
    dsimp only
    simp [setAt]
    omega
  case h2 => exact hm
  case h3 => exact hm
  case h4 => omega
  case h5 =>
    dsimp only
    simp [setAt]
  case h6 => exact hsmax
  case hpl =>
    dsimp only
    simp [setAt, hp]
  case henc =>
    dsimp only
    simp [setAt, he, hsmod, tryIncrease, tryDecrease, hsU]
  case hdebt =>
    dsimp only
    simp [setAt, hd, he, hsmod, hbmod, tryIncrease, tryDecrease, hsU, hbU, hbs]

theorem round_trip_witness :
    ((demoState 0 0 0).stakedPlain 7 = 0 ∧
      (demoState 0 0 0).stakedEncrypted 7 = 0 ∧
      (demoState 0 0 0).debtEncrypted 7 = 0 ∧
      (demoState 0 0 0).selfAddr = (demoState 0 0 0).czama.minter ∧
      0 < 5 ∧ 5 ≤ U64MAX ∧ 0 < 3 ∧ 3 ≤ 5) ∧
    (∃ st1 st2 st3 st4,
      stake (demoState 0 0 0) 7 5 = Except.ok st1 ∧
      borrow st1 7 3 true = Except.ok st2 ∧
      repay st2 7 3 true = Except.ok st3 ∧
      withdraw st3 7 5 true = Except.ok st4 ∧
      st4.stakedPlain 7 = 0 ∧
      st4.stakedEncrypted 7 = 0 ∧
      st4.debtEncrypted 7 = 0) :=
  ⟨⟨by decide, by decide, by decide, by decide, by decide, by decide, by decide, by decide⟩,
    round_trip (demoState 0 0 0) 7 5 3 (by decide) (by decide) (by decide) (by decide)
      (by decide) (by decide) (by decide) (by decide)⟩

/-- C6: for every caller with a validated 64-bit repay amount a and
current debt d, repay succeeds, stores the clamped debt (d - a when a
is at most d, d unchanged otherwise) unconditionally, burns a under
that condition and zero otherwise from the caller Ledger balance; in
particular a repay of a exceeding d leaves both the debt and the
Ledger balance unchanged. -/
theorem repay_conditional_update (st : ShieldState) (sender a : Nat)
    (ha : a ≤ U64MAX)
    (hm : st.selfAddr = st.czama.minter)
    (hbal : st.czama.balances sender < U64MOD) :
    ∃ st2, repay st sender a true = Except.ok st2 ∧
      st2.debtEncrypted sender =
        (if a ≤ st.debtEncrypted sender
          then st.debtEncrypted sender - a
          else st.debtEncrypted sender) ∧
      st2.czama.balances sender =
        fheSub (st.czama.balances sender)
          (if a ≤ st.debtEncrypted sender then a else 0) ∧
      (st.debtEncrypted sender < a →
        st2.debtEncrypted sender = st.debtEncrypted sender ∧
        st2.czama.balances sender = st.czama.balances sender) := by
  have hmod : a % U64MOD = a := Nat.mod_eq_of_lt (U64_lt_of_le_max _ ha)
  refine ⟨_, repay_ok st sender a hm, ?_, ?_, ?_⟩
  · dsimp only
    rw [setAt_self, hmod]
    simp [tryDecrease]
  · dsimp only
    rw [setAt_self, hmod]
    simp [tryDecrease]
  · intro hlt
    have hnle : ¬ (a ≤ st.debtEncrypted sender) := by omega
    constructor
    · dsimp only
      rw [setAt_self, hmod]
      simp [tryDecrease, hnle]
    · dsimp only
      rw [setAt_self, hmod]
      simp [tryDecrease, hnle, fheSub_zero _ hbal]

theorem repay_conditional_update_witness :
    (3 ≤ U64MAX ∧
      (demoState 5 5 5).selfAddr = (demoState 5 5 5).czama.minter ∧
      (demoState 5 5 5).czama.balances 7 < U64MOD) ∧
    (∃ st2, repay (demoState 5 5 5) 7 3 true = Except.ok st2 ∧
      st2.debtEncrypted 7 =
        (if 3 ≤ (demoState 5 5 5).debtEncrypted 7
          then (demoState 5 5 5).debtEncrypted 7 - 3
          else (demoState 5 5 5).debtEncrypted 7) ∧
      st2.czama.balances 7 =
        fheSub ((demoState 5 5 5).czama.balances 7)
          (if 3 ≤ (demoState 5 5 5).debtEncrypted 7 then 3 else 0) ∧
      ((demoState 5 5 5).debtEncrypted 7 < 3 →
        st2.debtEncrypted 7 = (demoState 5 5 5).debtEncrypted 7 ∧
        st2.czama.balances 7 = (demoState 5 5 5).czama.balances 7)) :=
  ⟨⟨by decide, by decide, by decide⟩,
    repay_conditional_update (demoState 5 5 5) 7 3 (by decide) (by decide) (by decide)⟩

/-- C7: a caller whose plain stake is zero always gets the NoStake
failure from borrow, whatever the supplied amount and whatever the
validity of the proof: the plaintext gate precedes the decoding of the
external ciphertext, and the failing call mutates no state. -/
theorem borrow_requires_stake (st : ShieldState) (sender : Nat)
    (h : st.stakedPlain sender = 0) :
    ∀ amount proofValid,
      borrow st sender amount proofValid = Except.error Err.NoStake := by
  intro amount proofValid
  simp [borrow, h]

theorem borrow_requires_stake_witness :
    (demoState 0 0 0).stakedPlain 7 = 0 ∧
    borrow (demoState 0 0 0) 7 3 false = Except.error Err.NoStake :=
  ⟨by decide, borrow_requires_stake (demoState 0 0 0) 7 (by decide) 3 false⟩

/-- C8: Ledger mint and burnFrom fail with UnauthorizedMinter exactly
when the caller differs from the authorized minter; when the caller is
the minter they perform the balance update and return the new balance
handle. -/
theorem minter_gate (st : CZamaState) (caller toAcc fromAcc amount : Nat) :
    (caller ≠ st.minter →
      CZama.mint st caller toAcc amount = Except.error Err.UnauthorizedMinter ∧
      CZama.burnFrom st caller fromAcc amount = Except.error Err.UnauthorizedMinter) ∧
    (caller = st.minter →
      CZama.mint st caller toAcc amount =
        Except.ok
          ({ st with balances := setAt st.balances toAcc (fheAdd (st.balances toAcc) amount) },
            fheAdd (st.balances toAcc) amount) ∧
      CZama.burnFrom st caller fromAcc amount =
        Except.ok
          ({ st with balances := setAt st.balances fromAcc (fheSub (st.balances fromAcc) amount) },
            fheSub (st.balances fromAcc) amount)) := by
  constructor
  · intro h
    exact ⟨by simp [CZama.mint, h], by simp [CZama.burnFrom, h]⟩
  · intro h
    exact ⟨by simp [CZama.mint, h], by simp [CZama.burnFrom, h]⟩

theorem minter_gate_witness :
    CZama.mint czDemo 2 7 5 = Except.error Err.UnauthorizedMinter ∧
    CZama.burnFrom czDemo 1 7 5 =
      Except.ok
        ({ czDemo with balances := setAt czDemo.balances 7 (fheSub (czDemo.balances 7) 5) },
          fheSub (czDemo.balances 7) 5) :=
  ⟨((minter_gate czDemo 2 7 7 5).1 (by decide)).1,
    ((minter_gate czDemo 1 7 7 5).2 (by decide)).2⟩

/-- C9: under the invariant that the plain stake is within the 64-bit
domain (established by the bound check in stake), the StakeTooLarge
branch of withdraw is unreachable: any amount passing the
InsufficientStake check is already at most the 64-bit maximum. -/
theorem withdraw_stake_too_large_unreachable (st : ShieldState) (sender : Nat)
    (hbound : st.stakedPlain sender ≤ U64MAX) :
    ∀ amount transferOk,
      withdraw st sender amount transferOk ≠ Except.error Err.StakeTooLarge := by
  intro amount transferOk
  simp only [withdraw]
  by_cases h0 : amount = 0
  · simp [h0]
  · rw [if_neg h0]
    by_cases h1 : st.stakedPlain sender < amount
    · rw [if_pos h1]; simp
    · rw [if_neg h1, if_neg (by omega)]
      cases transferOk <;> simp

theorem withdraw_stake_too_large_unreachable_witness :
    (demoState 5 5 0).stakedPlain 7 ≤ U64MAX ∧
    withdraw (demoState 5 5 0) 7 3 true ≠ Except.error Err.StakeTooLarge :=
  ⟨by decide, withdraw_stake_too_large_unreachable (demoState 5 5 0) 7 (by decide) 3 true⟩

/-- C10: repay has no plaintext stake or debt precondition: a caller
with zero plain stake and zero debt still gets a successful repay for
any validated amount, the stored debt stays zero, and the burn of the
selected zero amount leaves the Ledger balance unchanged. -/
theorem repay_no_plaintext_gate (st : ShieldState) (sender a : Nat)
    (hstake : st.stakedPlain sender = 0)
    (hdebt : st.debtEncrypted sender = 0)
    (ha : a ≤ U64MAX)
    (hm : st.selfAddr = st.czama.minter)
    (hbal : st.czama.balances sender < U64MOD) :
    ∃ st2, repay st sender a true = Except.ok st2 ∧
      st2.debtEncrypted sender = 0 ∧
      st2.czama.balances sender = st.czama.balances sender := by
  have hmod : a % U64MOD = a := Nat.mod_eq_of_lt (U64_lt_of_le_max _ ha)
  refine ⟨_, repay_ok st sender a hm, ?_, ?_⟩
  · dsimp only
    rw [setAt_self, hmod, hdebt]
    simp only [tryDecrease]
    split <;> omega
  · dsimp only
    rw [setAt_self, hmod, hdebt]
    simp only [tryDecrease]
    by_cases h : a ≤ 0
    · have : a = 0 := by omega
      simp [this, fheSub_zero _ hbal]
    · simp [h, fheSub_zero _ hbal]

theorem repay_no_plaintext_gate_witness :
    ((demoState 0 0 0).stakedPlain 7 = 0 ∧ (demoState 0 0 0).debtEncrypted 7 = 0 ∧
      3 ≤ U64MAX ∧ (demoState 0 0 0).selfAddr = (demoState 0 0 0).czama.minter ∧
      (demoState 0 0 0).czama.balances 7 < U64MOD) ∧
    (∃ st2, repay (demoState 0 0 0) 7 3 true = Except.ok st2 ∧
      st2.debtEncrypted 7 = 0 ∧
      st2.czama.balances 7 = (demoState 0 0 0).czama.balances 7) :=
  ⟨⟨by decide, by decide, by decide, by decide, by decide⟩,
    repay_no_plaintext_gate (demoState 0 0 0) 7 3
      (by decide) (by decide) (by decide) (by decide) (by decide)⟩
